import Mathlib

/-!
Verification development for the native-library bridge of the arcSign
dashboard (Rust sources under `dashboard/src-tauri/src`).

The shallow embedding below translates the Rust code of
`ffi/bindings.rs`, `ffi/queue.rs`, `ffi/types.rs` and `error.rs` into
executable Lean definitions.  External effects (the OS dynamic loader,
the foreign Go functions, the JSON parser of the `serde_json` crate)
are passed in as explicit parameters or modelled as abstract inputs;
everything the Rust code itself computes is translated directly.
-/

set_option autoImplicit false

/-- JSON values, standing in for `serde_json::Value`. -/
inductive JsonValue where
  | null
  | bool (b : Bool)
  | num (n : Int)
  | str (s : String)
  | arr (elems : List JsonValue)
  | obj (fields : List (String × JsonValue))

/-- Structured error from FFI functions (`ffi/types.rs`, struct `FFIError`). -/
structure FFIError where
  code : String
  message : String

/-- Standard response envelope for all FFI functions
(`ffi/types.rs`, struct `FFIResponse<T>`, instantiated at
`T = serde_json::Value` as in `bindings.rs`). -/
structure FFIResponse where
  success : Bool
  data : Option JsonValue
  error : Option FFIError

namespace ffi

/-- Error codes matching Go ErrorCode constants
(`ffi/types.rs`, enum `ErrorCode`). -/
inductive ErrorCode where
  | invalidInput
  | invalidMnemonic
  | invalidPassword
  | invalidBlockchain
  | walletNotFound
  | walletAlreadyExists
  | storageError
  | encryptionError
  | libraryPanic
  | unknown (s : String)
deriving DecidableEq

/-- The `impl From<String> for ErrorCode` of `ffi/types.rs` lines 43-58:
a chain of string comparisons with a final `Unknown(s)` fallback. -/
def ErrorCode.fromString (s : String) : ErrorCode :=
  if s = "INVALID_INPUT" then .invalidInput
  else if s = "INVALID_MNEMONIC" then .invalidMnemonic
  else if s = "INVALID_PASSWORD" then .invalidPassword
  else if s = "INVALID_BLOCKCHAIN" then .invalidBlockchain
  else if s = "WALLET_NOT_FOUND" then .walletNotFound
  else if s = "WALLET_ALREADY_EXISTS" then .walletAlreadyExists
  else if s = "STORAGE_ERROR" then .storageError
  else if s = "ENCRYPTION_ERROR" then .encryptionError
  else if s = "LIBRARY_PANIC" then .libraryPanic
  else .unknown s

end ffi

/-! ## The unsafe-to-safe call adapter (`ffi/bindings.rs`)

A foreign call result is a nullable pointer into foreign memory.  We
model the foreign side's answer as `Option (List Nat)`: `none` is a
null pointer and `some mem` is the byte content of foreign memory at
the returned pointer (each entry a byte value `< 256`; the buffer is
NUL-terminated in the foreign convention).  `serde_json::from_str` is
an external crate; the adapter is parametrised by the parse function
`parse` it would invoke on the copied text (given here the raw UTF-8
bytes of that text). -/

/-- Bytes read by `CStr::from_ptr`: the foreign buffer up to (excluding)
the first NUL byte. -/
def c_str_bytes : List Nat → List Nat
  | [] => []
  | b :: rest => if b = 0 then [] else b :: c_str_bytes rest

/-- Whether `b` is a UTF-8 continuation byte (`0x80..=0xBF`). -/
def utf8_cont (b : Nat) : Bool :=
  0x80 ≤ b && b ≤ 0xBF

/-- UTF-8 validity of a byte sequence, exactly the check performed by
`str::from_utf8` (which backs `CStr::to_str`): ASCII, two-byte
`0xC2..=0xDF`, three-byte forms excluding overlongs and surrogates,
four-byte forms up to `U+10FFFF`. -/
def utf8_valid : List Nat → Bool
  | [] => true
  | b :: rest =>
    if b ≤ 0x7F then utf8_valid rest
    else if 0xC2 ≤ b && b ≤ 0xDF then
      match rest with
      | b1 :: r => utf8_cont b1 && utf8_valid r
      | [] => false
    else if b = 0xE0 then
      match rest with
      | b1 :: b2 :: r => (0xA0 ≤ b1 && b1 ≤ 0xBF) && utf8_cont b2 && utf8_valid r
      | _ => false
    else if (0xE1 ≤ b && b ≤ 0xEC) || b = 0xEE || b = 0xEF then
      match rest with
      | b1 :: b2 :: r => utf8_cont b1 && utf8_cont b2 && utf8_valid r
      | _ => false
    else if b = 0xED then
      match rest with
      | b1 :: b2 :: r => (0x80 ≤ b1 && b1 ≤ 0x9F) && utf8_cont b2 && utf8_valid r
      | _ => false
    else if b = 0xF0 then
      match rest with
      | b1 :: b2 :: b3 :: r =>
        (0x90 ≤ b1 && b1 ≤ 0xBF) && utf8_cont b2 && utf8_cont b3 && utf8_valid r
      | _ => false
    else if 0xF1 ≤ b && b ≤ 0xF3 then
      match rest with
      | b1 :: b2 :: b3 :: r =>
        utf8_cont b1 && utf8_cont b2 && utf8_cont b3 && utf8_valid r
      | _ => false
    else if b = 0xF4 then
      match rest with
      | b1 :: b2 :: b3 :: r =>
        (0x80 ≤ b1 && b1 ≤ 0x8F) && utf8_cont b2 && utf8_cont b3 && utf8_valid r
      | _ => false
    else false

/-- Result of one adapter call: the value returned to the caller, and
how many times `GoFree` was invoked on the foreign result pointer
during the call. -/
structure CallResult where
  result : Except String JsonValue
  goFreeCalls : Nat

/-- The shared post-parse logic of `get_version`, `call_ffi_json` and
`call_ffi_with_params` (`bindings.rs` lines 358-366, 403-413, 454-464):
on `success` extract `data` (its absence is the error
`"Success response missing data"`); otherwise format the envelope
error, defaulting to `UNKNOWN` when it is absent.  The
`serde_json::from_value::<T>` step is the identity at
`T = serde_json::Value`, the instantiation used by every wallet
operation. -/
def handle_response (r : FFIResponse) : Except String JsonValue :=
  if r.success then
    match r.data with
    | some d => .ok d
    | none => .error "Success response missing data"
  else
    match r.error with
    | some e => .error (e.code ++ ": " ++ e.message)
    | none => .error ("UNKNOWN" ++ ": " ++ "Unknown error")

namespace WalletLibrary

/-- `WalletLibrary::call_ffi_with_params` (`bindings.rs` lines 427-466).
`params` are the bytes of the caller's JSON string (`CString::new`
rejects an interior NUL); `ffiResult` is the raw foreign call's answer.
The order of effects follows the source: null check, copy via
`CStr::from_ptr`, UTF-8 validation by `to_str` — whose failure
**returns early, before the `(self.go_free)(result_ptr)` call** — then
`GoFree`, then JSON parsing and envelope handling. -/
def call_ffi_with_params (parse : List Nat → Option FFIResponse)
    (params : List Nat) (ffiResult : Option (List Nat)) : CallResult :=
  if params.contains 0 then
    ⟨.error "Invalid params JSON: nul byte found in provided data", 0⟩
  else
    match ffiResult with
    | none => ⟨.error "FFI function returned null pointer", 0⟩
    | some mem =>
      let bytes := c_str_bytes mem
      if utf8_valid bytes then
        match parse bytes with
        | none => ⟨.error "JSON parse error", 1⟩
        | some response => ⟨handle_response response, 1⟩
      else
        ⟨.error "Invalid UTF-8", 0⟩

/-- `WalletLibrary::call_ffi_json` (`bindings.rs` lines 380-415): the
parameterless variant, with the same copy / validate / free / parse
sequence and the same early return on invalid UTF-8. -/
def call_ffi_json (parse : List Nat → Option FFIResponse)
    (ffiResult : Option (List Nat)) : CallResult :=
  match ffiResult with
  | none => ⟨.error "FFI function returned null pointer", 0⟩
  | some mem =>
    let bytes := c_str_bytes mem
    if utf8_valid bytes then
      match parse bytes with
      | none => ⟨.error "JSON parse error", 1⟩
      | some response => ⟨handle_response response, 1⟩
    else
      ⟨.error "Invalid UTF-8", 0⟩

/-- `WalletLibrary::get_version` (`bindings.rs` lines 335-368): same
shape as `call_ffi_json` with its own diagnostic strings; the UTF-8
failure again returns before `GoFree`. -/
def get_version (parse : List Nat → Option FFIResponse)
    (ffiResult : Option (List Nat)) : CallResult :=
  match ffiResult with
  | none => ⟨.error "GetVersion returned null pointer", 0⟩
  | some mem =>
    let bytes := c_str_bytes mem
    if utf8_valid bytes then
      match parse bytes with
      | none => ⟨.error "JSON parse error", 1⟩
      | some response => ⟨handle_response response, 1⟩
    else
      ⟨.error "Invalid UTF-8 from GetVersion", 0⟩

end WalletLibrary

/-! ## Library loading (`ffi/bindings.rs`, `WalletLibrary::load` and
`get_search_paths`)

The OS dynamic loader (`libloading::Library::new`) is external: we
parametrise the load loop by `osLoad`, mapping a candidate path to
either a loaded handle (abstracted as a `Nat`) or an error message. -/

namespace WalletLibrary

/-- `WalletLibrary::get_search_paths` (`bindings.rs` lines 258-320),
Linux configuration: bare library name, the two development-tree
paths, then `~/.local/lib/arcsign` when `HOME` is set, then the two
system directories. -/
def get_search_paths (home : Option String) (libName : String) : List String :=
  [libName, "dashboard/src-tauri/" ++ libName, "src-tauri/" ++ libName] ++
    (match home with
     | some h => [h ++ "/.local/lib/arcsign/" ++ libName]
     | none => []) ++
    ["/usr/local/lib/arcsign/" ++ libName, "/opt/arcsign/lib/" ++ libName]

/-- The candidate loop of `WalletLibrary::load` (`bindings.rs` lines
133-153): try each path in order, first success wins; on failure
remember `last_error = format!("{}: {}", path, e)`; when the loop
exhausts the list, return
`"Failed to load {lib_name} from any search path. Last error: {last_error}"`. -/
def load_loop (osLoad : String → Except String Nat) (libName : String) :
    List String → String → Except String Nat
  | [], lastError =>
    .error ("Failed to load " ++ libName ++
      " from any search path. Last error: " ++ lastError)
  | p :: ps, _lastError =>
    match osLoad p with
    | .ok lib => .ok lib
    | .error e => load_loop osLoad libName ps (p ++ ": " ++ e)

/-- `WalletLibrary::load` up to the symbol-resolution phase: runs the
candidate loop over the computed search paths with an initially empty
`last_error`. -/
def load (osLoad : String → Except String Nat) (libName : String)
    (paths : List String) : Except String Nat :=
  load_loop osLoad libName paths ""

end WalletLibrary

/-! ## Error types and translation (`error.rs`) -/

/-- Error code enumeration of `error.rs` (enum `ErrorCode`). -/
inductive ErrorCode where
  | usbNotFound
  | usbNotWritable
  | usbInsufficientSpace
  | walletNotFound
  | walletAlreadyExists
  | invalidWalletId
  | invalidPassword
  | passwordTooWeak
  | passwordMismatch
  | invalidMnemonic
  | invalidMnemonicChecksum
  | invalidMnemonicLength
  | addressGenerationFailed
  | addressNotFound
  | cliExecutionFailed
  | cliTimeout
  | cliNotFound
  | exportFailed
  | invalidExportFormat
  | screenshotProtectionFailed
  | memoryClearFailed
  | ffiInvalidInput
  | ffiInvalidBlockchain
  | ffiStorageError
  | ffiEncryptionError
  | ffiLibraryPanic
  | internalError
  | serializationError
  | deserializationError
deriving DecidableEq

/-- Application error of `error.rs` (struct `AppError`).  The
`created_at : Option<Instant>` field records a wall-clock instant and
carries no information relevant to the verified claims; it is omitted
from the embedding. -/
structure AppError where
  code : ErrorCode
  message : String
  details : Option String

/-! `AppError::sanitize_message` works line-wise with Rust's
`str::lines`, which splits on `'\n'`, strips one trailing `'\r'` from
each line, and drops a final empty segment produced by a trailing
newline.  We model it on `List Char`. -/

/-- Split a character list on `'\n'`, keeping every (possibly empty)
segment, as the first phase of `str::lines`. -/
def split_nl : List Char → List (List Char)
  | [] => [[]]
  | c :: rest =>
    if c = '\n' then [] :: split_nl rest
    else
      match split_nl rest with
      | [] => [[c]]
      | p :: qs => (c :: p) :: qs

/-- Strip one trailing `'\r'`, as `str::lines` does per line. -/
def strip_cr (l : List Char) : List Char :=
  if l.getLast? = some '\r' then l.dropLast else l

/-- Rust `str::lines` on the character list of a string. -/
def rust_lines (s : List Char) : List (List Char) :=
  let ps := split_nl s
  (if ps.getLast? = some [] then ps.dropLast else ps).map strip_cr

/-- The replacement text of `AppError::sanitize_message`. -/
def sanitize_placeholder : List Char :=
  "Error occurred (path details hidden for security)".data

/-- The per-line branch of `sanitize_message` (`error.rs` lines
150-156): a line containing `'/'` or a backslash is replaced wholesale
by the placeholder. -/
def sanitize_line (l : List Char) : List Char :=
  if l.contains '/' || l.contains '\\' then sanitize_placeholder else l

/-- Join lines with `'\n'`, as `.join("\n")` does. -/
def join_nl : List (List Char) → List Char
  | [] => []
  | [l] => l
  | l :: ls => l ++ '\n' :: join_nl ls

namespace AppError

/-- `AppError::sanitize_message` (`error.rs` lines 146-166). -/
def sanitize_message (message : String) : String :=
  ⟨join_nl ((rust_lines message.data).map sanitize_line)⟩

/-- `AppError::new` (`error.rs` lines 87-94). -/
def new (code : ErrorCode) (message : String) : AppError :=
  ⟨code, sanitize_message message, none⟩

/-- `AppError::with_details` (`error.rs` lines 98-109). -/
def with_details (code : ErrorCode) (message : String) (details : String) :
    AppError :=
  ⟨code, sanitize_message message, some details⟩

/-- `AppError::from_ffi_error_code` (`error.rs` lines 214-237): the
match on the foreign code string, whose default arm yields
`ErrorCode::InternalError`. -/
def from_ffi_error_code (ffiCode : String) : ErrorCode :=
  if ffiCode = "INVALID_INPUT" then .ffiInvalidInput
  else if ffiCode = "INVALID_MNEMONIC" then .invalidMnemonic
  else if ffiCode = "INVALID_PASSWORD" then .invalidPassword
  else if ffiCode = "INVALID_BLOCKCHAIN" then .ffiInvalidBlockchain
  else if ffiCode = "WALLET_NOT_FOUND" then .walletNotFound
  else if ffiCode = "WALLET_ALREADY_EXISTS" then .walletAlreadyExists
  else if ffiCode = "STORAGE_ERROR" then .ffiStorageError
  else if ffiCode = "ENCRYPTION_ERROR" then .ffiEncryptionError
  else if ffiCode = "LIBRARY_PANIC" then .ffiLibraryPanic
  else .internalError

/-- The foreign codes recognised by `from_ffi_error_code` (every
non-default arm of the match). -/
def recognised_ffi_codes : List String :=
  ["INVALID_INPUT", "INVALID_MNEMONIC", "INVALID_PASSWORD",
   "INVALID_BLOCKCHAIN", "WALLET_NOT_FOUND", "WALLET_ALREADY_EXISTS",
   "STORAGE_ERROR", "ENCRYPTION_ERROR", "LIBRARY_PANIC"]

/-- `impl From<std::io::Error> for AppError` (`error.rs` lines
275-283): a local I/O failure becomes `ErrorCode::InternalError`. -/
def from_io_error (ioErrorText : String) : AppError :=
  with_details .internalError "File system operation failed" ioErrorText

/-- `impl From<serde_json::Error> for AppError` (`error.rs` lines
286-294): a local JSON failure becomes
`ErrorCode::DeserializationError`. -/
def from_json_error (jsonErrorText : String) : AppError :=
  with_details .deserializationError "JSON parsing failed" jsonErrorText

end AppError

/-! ## The serializing operation queue (`ffi/queue.rs`)

The queue uses `std::sync::mpsc::channel()` — the **unbounded**
standard-library channel — with one dedicated worker thread.  We model
the channel as the list of commands it currently buffers (`send`
appends, `recv` takes the front, which is exactly the FIFO semantics
of `std::sync::mpsc`), together with a flag for whether the receiver
is still alive (the only condition under which `send` errors).
`usize`/`u64` counters wrap at `2 ^ 64`. -/

/-- The wrap-around modulus of the `AtomicU64`/`AtomicUsize` counters
(64-bit target). -/
def USIZE_MOD : Nat := 2 ^ 64

/-- `QueueMetrics` (`queue.rs` lines 23-33), with each atomic counter
as a natural number below `USIZE_MOD`. -/
structure QueueMetrics where
  totalOperations : Nat
  currentDepth : Nat
  peakDepth : Nat
  totalWaitTimeMs : Nat

namespace QueueMetrics

/-- `QueueMetrics::new` (`queue.rs` lines 36-43). -/
def init : QueueMetrics := ⟨0, 0, 0, 0⟩

/-- `QueueMetrics::record_enqueue` (`queue.rs` lines 46-62):
`fetch_add(1)` on the depth, then the compare-exchange loop that
raises `peak_depth` to the observed depth when that is larger.  In
this sequentialised model every metric event is atomic, so the
compare-exchange succeeds on its first iteration. -/
def record_enqueue (m : QueueMetrics) : QueueMetrics :=
  let depth := (m.currentDepth + 1) % USIZE_MOD
  { m with
    currentDepth := depth
    peakDepth := if m.peakDepth < depth then depth else m.peakDepth }

/-- `QueueMetrics::record_dequeue` (`queue.rs` lines 65-69):
`fetch_sub(1)` on the depth (wrapping), `fetch_add(1)` on the total,
and the wait-time accumulation. -/
def record_dequeue (m : QueueMetrics) (waitTimeMs : Nat) : QueueMetrics :=
  { m with
    currentDepth := (m.currentDepth + (USIZE_MOD - 1)) % USIZE_MOD
    totalOperations := (m.totalOperations + 1) % USIZE_MOD
    totalWaitTimeMs := (m.totalWaitTimeMs + waitTimeMs) % USIZE_MOD }

end QueueMetrics

/-- A metric event: one producer-side `record_enqueue` or one
worker-side `record_dequeue` with its wait-time argument. -/
inductive MetricEvent where
  | enqueue
  | dequeue (waitTimeMs : Nat)

/-- Apply one metric event. -/
def metrics_step (m : QueueMetrics) : MetricEvent → QueueMetrics
  | .enqueue => m.record_enqueue
  | .dequeue w => m.record_dequeue w

/-- Apply a sequence of metric events in order. -/
def metrics_run (m : QueueMetrics) : List MetricEvent → QueueMetrics
  | [] => m
  | e :: es => metrics_run (metrics_step m e) es

/-- `WalletCommand` (`queue.rs` lines 122-184).  The `respond_to`
oneshot sender carried by each variant is represented outside the
command (the worker model returns each command's reply in its output
trace). -/
inductive WalletCommand where
  | getVersion
  | createWallet (paramsJson : String)
  | importWallet (paramsJson : String)
  | unlockWallet (paramsJson : String)
  | generateAddresses (paramsJson : String)
  | exportWallet (paramsJson : String)
  | renameWallet (paramsJson : String)
  | listWallets (paramsJson : String)
  | setProviderConfig (paramsJson : String)
  | getProviderConfig (paramsJson : String)
  | listProviderConfigs (paramsJson : String)
  | deleteProviderConfig (paramsJson : String)

/-- The producer-visible state of a `WalletQueue`: the unbounded
channel buffer, whether the worker (receiver) is still alive, and the
shared metrics. -/
structure QueueState where
  receiverAlive : Bool
  buffer : List WalletCommand
  metrics : QueueMetrics

/-- The queue state right after `WalletQueue::new` (`queue.rs` lines
200-217): empty channel, live worker, fresh metrics. -/
def initial_queue_state : QueueState :=
  ⟨true, [], QueueMetrics.init⟩

/-- The synchronous part of `WalletQueue::create_wallet` (`queue.rs`
lines 331-347): `record_enqueue`, then `sender.send(cmd)`, which on
the unbounded `std::sync::mpsc` channel succeeds whenever the
receiver is alive (appending to the buffer) and otherwise returns the
`"Queue channel closed"` error without enqueueing. -/
def submit_create_wallet (st : QueueState) (paramsJson : String) :
    QueueState × Except String Unit :=
  let m := st.metrics.record_enqueue
  if st.receiverAlive then
    ({ st with
        metrics := m
        buffer := st.buffer ++ [WalletCommand.createWallet paramsJson] },
     .ok ())
  else
    ({ st with metrics := m }, .error "Queue channel closed")

/-- Fold `submit_create_wallet` over a list of parameter strings, one
submission per element, discarding the per-submission results. -/
def submit_all (st : QueueState) : List String → QueueState
  | [] => st
  | p :: ps => submit_all (submit_create_wallet st p).1 ps

/-- `recv` on the modelled channel: the front of the buffer, in FIFO
order, exactly as `std::sync::mpsc::Receiver::recv` delivers. -/
def channel_recv (buf : List WalletCommand) :
    Option (WalletCommand × List WalletCommand) :=
  match buf with
  | [] => none
  | c :: rest => some (c, rest)

/-- The worker loop of `WalletQueue::worker_task` (`queue.rs` lines
227-311) restricted to its processing order: repeatedly `recv` a
command, perform the matching `FFIBridge` call (`exec`, the foreign
library being external), and send the result on the command's reply
channel.  The returned trace records, in execution order, each command
with the reply the worker sent for it. -/
def worker_run (exec : WalletCommand → Except String JsonValue) :
    List WalletCommand → List (WalletCommand × Except String JsonValue)
  | [] => []
  | c :: rest => (c, exec c) :: worker_run exec rest

/-- Outcome of the `library.xxx(&params_json)` call the worker makes
for one dequeued command: either a returned `Result` or a Rust panic
unwinding out of the foreign-call wrapper. -/
inductive FfiOutcome where
  | ret (r : Except String JsonValue)
  | panicked

/-- Observable effect of one iteration of the worker loop on its
current command. -/
structure WorkerStepEffect where
  reply : Option (Except String JsonValue)
  dequeueRecorded : Bool
  continues : Bool

/-- One iteration of `worker_task` (`queue.rs` lines 236-308) at the
point where the FFI call for the dequeued command has the given
outcome.  The source wraps the call in no `catch_unwind`, so a panic
unwinds straight through `worker_task`: the `respond_to.send`, the
`record_dequeue` and the next loop iteration are never reached and the
worker thread terminates.  A returned result is sent to the caller
(`let _ = respond_to.send(result)`), `record_dequeue` runs, and the
loop continues with the next `recv`. -/
def worker_step : FfiOutcome → WorkerStepEffect
  | .ret r => ⟨some r, true, true⟩
  | .panicked => ⟨none, false, false⟩

/-- The await half of the producer wrappers (`queue.rs` lines 323-327
and analogues): `receiver.recv()` mapped through
`"Response channel closed"` when the worker dropped the reply sender
without sending. -/
def await_reply (delivered : Option (Except String JsonValue)) :
    Except String JsonValue :=
  match delivered with
  | some r => r
  | none => .error "Response channel closed"

/-- Timing of one worker iteration for a command: `operation_start`
is taken by `Instant::now()` immediately after `recv` returns
(`queue.rs` line 237), and `record_dequeue(operation_start.elapsed())`
runs once the FFI call and the reply send are done, `processingMs`
later.  `WalletCommand` carries no enqueue timestamp, so no enqueue
time participates. -/
def process_op (m : QueueMetrics) (dequeueTimeMs processingMs : Nat) :
    QueueMetrics :=
  m.record_dequeue ((dequeueTimeMs + processingMs) - dequeueTimeMs)

/-! ## Concrete fixtures

Concrete instantiations of the external parameters (foreign library
answers, OS loader outcomes, parser behaviours) used to evaluate the
embedded code on specific inputs. -/

/-- A parser that rejects every input (any behaviour past the free is
irrelevant to the memory accounting). -/
def parse_none : List Nat → Option FFIResponse := fun _ => none

/-- A parser producing the envelope `{"success": true}` with no `data`
field, for every input. -/
def parse_success_no_data : List Nat → Option FFIResponse :=
  fun _ => some ⟨true, none, none⟩

/-- An OS loader for which every candidate path fails. -/
def os_load_fail : String → Except String Nat :=
  fun _ => .error "no such file"

/-- An OS loader that succeeds exactly on the path `"goodpath"`. -/
def os_load_good : String → Except String Nat :=
  fun p => if p = "goodpath" then .ok 7 else .error "no such file"

/-- A queue state whose channel already buffers 100 pending
operations (the capacity the claim names), with a live worker. -/
def full_100_state : QueueState :=
  ⟨true, List.replicate 100 WalletCommand.getVersion, QueueMetrics.init⟩

/-- A queue state whose worker (receiver) is gone. -/
def closed_state : QueueState :=
  ⟨false, [], QueueMetrics.init⟩

/-- Substring test on character lists: `needle` occurs contiguously in
the haystack. -/
def has_substring (needle : List Char) : List Char → Bool
  | [] => needle.isEmpty
  | c :: rest => List.isPrefixOf needle (c :: rest) || has_substring needle rest

/-- A line is clean when it contains neither `'/'` nor a backslash. -/
def line_clean (l : List Char) : Bool :=
  !(l.contains '/' || l.contains '\\')

/-! ## Helper lemmas -/

theorem split_nl_ne_nil (s : List Char) : split_nl s ≠ [] := by
  cases s with
  | nil => simp [split_nl]
  | cons c rest =>
    simp only [split_nl]
    split
    · simp
    · cases h : split_nl rest <;> simp

theorem mem_of_mem_split_nl :
    ∀ (s : List Char) (l : List Char), l ∈ split_nl s → ∀ c ∈ l, c ∈ s := by
  intro s
  induction s with
  | nil =>
    intro l hl c hc
    simp [split_nl] at hl
    subst hl
    simp at hc
  | cons a rest ih =>
    intro l hl c hc
    by_cases ha : a = '\n'
    · subst ha
      simp only [split_nl, if_pos rfl] at hl
      rcases List.mem_cons.mp hl with h | h
      · subst h; simp at hc
      · exact List.mem_cons_of_mem _ (ih l h c hc)
    · simp only [split_nl, if_neg ha] at hl
      cases hrest : split_nl rest with
      | nil => exact absurd hrest (split_nl_ne_nil rest)
      | cons p qs =>
        rw [hrest] at hl
        rcases List.mem_cons.mp hl with h | h
        · subst h
          rcases List.mem_cons.mp hc with h | h
          · subst h; exact List.mem_cons_self _ _
          · have hp : p ∈ split_nl rest := by
              rw [hrest]; exact List.mem_cons_self _ _
            exact List.mem_cons_of_mem _ (ih p hp c h)
        · have hq : l ∈ split_nl rest := by
            rw [hrest]; exact List.mem_cons_of_mem _ h
          exact List.mem_cons_of_mem _ (ih l hq c hc)

theorem mem_join_nl :
    ∀ (L : List (List Char)) (c : Char), c ∈ join_nl L →
      c = '\n' ∨ ∃ l ∈ L, c ∈ l := by
  intro L
  induction L with
  | nil => intro c hc; simp [join_nl] at hc
  | cons l ls ih =>
    intro c hc
    cases ls with
    | nil =>
      simp only [join_nl] at hc
      exact .inr ⟨l, List.mem_cons_self _ _, hc⟩
    | cons l2 ls2 =>
      simp only [join_nl] at hc
      rcases List.mem_append.mp hc with h | h
      · exact .inr ⟨l, List.mem_cons_self _ _, h⟩
      · rcases List.mem_cons.mp h with h | h
        · exact .inl h
        · rcases ih c h with h | ⟨l3, hl3, hc3⟩
          · exact .inl h
          · exact .inr ⟨l3, List.mem_cons_of_mem _ hl3, hc3⟩

theorem not_mem_of_contains_eq_false {l : List Char} {c : Char}
    (h : l.contains c = false) : c ∉ l := by
  intro hm
  have := List.elem_iff.mpr hm
  simp [List.contains] at h
  exact absurd this (by simpa using h)

theorem contains_eq_false_of_not_mem {l : List Char} {c : Char}
    (h : c ∉ l) : l.contains c = false := by
  cases hc : l.contains c with
  | false => rfl
  | true =>
    have : c ∈ l := List.elem_iff.mp (by simpa [List.contains] using hc)
    exact absurd this h

theorem sanitize_line_no_slash (l : List Char) :
    '/' ∉ sanitize_line l ∧ '\\' ∉ sanitize_line l := by
  unfold sanitize_line
  split
  · constructor <;> decide
  · rename_i h
    have h' : (l.contains '/' || l.contains '\\') = false := by simpa using h
    rcases Bool.or_eq_false_iff.mp h' with ⟨h1, h2⟩
    exact ⟨not_mem_of_contains_eq_false h1, not_mem_of_contains_eq_false h2⟩

theorem sanitize_message_no_slash (msg : String) (c : Char)
    (hc : c ∈ (AppError.sanitize_message msg).data) : ¬(c = '/' ∨ c = '\\') := by
  intro hbad
  have hj : c ∈ join_nl ((rust_lines msg.data).map sanitize_line) := hc
  rcases mem_join_nl _ c hj with h | ⟨l, hl, hcl⟩
  · rcases hbad with h2 | h2 <;> (subst h2; simp at h)
  · rcases List.mem_map.mp hl with ⟨l0, _, rfl⟩
    rcases sanitize_line_no_slash l0 with ⟨hs1, hs2⟩
    rcases hbad with h2 | h2 <;> subst h2
    · exact hs1 hcl
    · exact hs2 hcl

theorem load_loop_skips_failures (osLoad : String → Except String Nat)
    (libName : String) :
    ∀ (pre : List String) (rest : List String) (acc : String),
      (∀ q ∈ pre, ∃ e, osLoad q = .error e) →
      ∃ acc2, WalletLibrary.load_loop osLoad libName (pre ++ rest) acc =
        WalletLibrary.load_loop osLoad libName rest acc2 := by
  intro pre
  induction pre with
  | nil => intro rest acc _; exact ⟨acc, rfl⟩
  | cons q qs ih =>
    intro rest acc hfail
    rcases hfail q (List.mem_cons_self _ _) with ⟨e, he⟩
    have : WalletLibrary.load_loop osLoad libName ((q :: qs) ++ rest) acc =
        WalletLibrary.load_loop osLoad libName (qs ++ rest) (q ++ ": " ++ e) := by
      simp [WalletLibrary.load_loop, he]
    rw [this]
    exact ih rest (q ++ ": " ++ e) (fun p hp => hfail p (List.mem_cons_of_mem _ hp))

theorem load_loop_all_fail (osLoad : String → Except String Nat)
    (libName : String) :
    ∀ (ps : List String) (lastP e : String) (acc : String),
      (∀ q ∈ ps, ∃ e', osLoad q = .error e') →
      osLoad lastP = .error e →
      WalletLibrary.load_loop osLoad libName (ps ++ [lastP]) acc =
        .error ("Failed to load " ++ libName ++
          " from any search path. Last error: " ++ (lastP ++ ": " ++ e)) := by
  intro ps
  induction ps with
  | nil =>
    intro lastP e acc _ hlast
    simp [WalletLibrary.load_loop, hlast]
  | cons q qs ih =>
    intro lastP e acc hfail hlast
    rcases hfail q (List.mem_cons_self _ _) with ⟨e', he'⟩
    have : WalletLibrary.load_loop osLoad libName ((q :: qs) ++ [lastP]) acc =
        WalletLibrary.load_loop osLoad libName (qs ++ [lastP]) (q ++ ": " ++ e') := by
      simp [WalletLibrary.load_loop, he']
    rw [this]
    exact ih lastP e _ (fun p hp => hfail p (List.mem_cons_of_mem _ hp)) hlast

theorem submit_create_wallet_alive (st : QueueState) (p : String)
    (h : st.receiverAlive = true) :
    (submit_create_wallet st p).1.receiverAlive = true ∧
      (submit_create_wallet st p).1.buffer =
        st.buffer ++ [WalletCommand.createWallet p] ∧
      (submit_create_wallet st p).2 = .ok () := by
  simp [submit_create_wallet, h]

theorem submit_all_buffer :
    ∀ (ps : List String) (st : QueueState), st.receiverAlive = true →
      (submit_all st ps).buffer = st.buffer ++ ps.map WalletCommand.createWallet := by
  intro ps
  induction ps with
  | nil => intro st _; simp [submit_all]
  | cons p rest ih =>
    intro st h
    rcases submit_create_wallet_alive st p h with ⟨h1, h2, _⟩
    have : submit_all st (p :: rest) = submit_all (submit_create_wallet st p).1 rest := rfl
    rw [this, ih _ h1, h2]
    simp

theorem worker_run_map (exec : WalletCommand → Except String JsonValue) :
    ∀ buf : List WalletCommand,
      worker_run exec buf = buf.map (fun c => (c, exec c)) := by
  intro buf
  induction buf with
  | nil => rfl
  | cons c rest ih => simp [worker_run, ih]

theorem metrics_step_peak_le (m : QueueMetrics) (e : MetricEvent) :
    m.peakDepth ≤ (metrics_step m e).peakDepth := by
  cases e with
  | enqueue =>
    simp only [metrics_step, QueueMetrics.record_enqueue]
    split
    · exact Nat.le_of_lt (by assumption)
    · exact Nat.le_refl _
  | dequeue w => exact Nat.le_refl _

theorem metrics_run_peak_le :
    ∀ (evs : List MetricEvent) (m : QueueMetrics),
      m.peakDepth ≤ (metrics_run m evs).peakDepth := by
  intro evs
  induction evs with
  | nil => intro m; exact Nat.le_refl _
  | cons e rest ih =>
    intro m
    exact Nat.le_trans (metrics_step_peak_le m e) (ih (metrics_step m e))

/-! ## Claim theorems -/

/-- C1: the claim states that whenever the raw foreign function
returns a non-null result pointer, `GoFree` is invoked exactly once on
it before the adapter returns, regardless of whether UTF-8 validation,
JSON parsing or envelope decoding fails.  Evaluating the embedded
adapters at a non-null result buffer whose bytes are invalid UTF-8
(`0xFF`) shows all three generic adapters return the UTF-8 transport
error with **zero** `GoFree` invocations — the `?` early return of
`to_str` precedes the `(self.go_free)(result_ptr)` call — while a
valid buffer is freed exactly once.  This contradicts the module's own
documentation (`ffi/mod.rs`: "Rust must call GoFree() on all returned
pointers", "Pattern: call FFI → copy result → free immediately"). -/
theorem c1_go_free_skipped_on_invalid_utf8 :
    (WalletLibrary.call_ffi_with_params parse_none [] (some [255, 0])).goFreeCalls = 0
  ∧ (WalletLibrary.call_ffi_with_params parse_none [] (some [255, 0])).result =
      .error "Invalid UTF-8"
  ∧ (WalletLibrary.call_ffi_json parse_none (some [255, 0])).goFreeCalls = 0
  ∧ (WalletLibrary.get_version parse_none (some [255, 0])).goFreeCalls = 0
  ∧ (WalletLibrary.call_ffi_with_params parse_none [] (some [65, 0])).goFreeCalls = 1 :=
  ⟨rfl, rfl, rfl, rfl, rfl⟩

/-- C2 counterexample: the claim asserts a bounded channel of capacity
100 whose overflow submissions synchronously receive a
capacity-exceeded error with no enqueue.  In a state already holding
100 pending operations, `create_wallet`'s submission still succeeds
and enqueues a 101st command: the channel is `std::sync::mpsc::channel()`,
which is unbounded. -/
theorem c2_counterexample_submit_succeeds_at_capacity :
    (submit_create_wallet full_100_state "params").2 = .ok ()
  ∧ (submit_create_wallet full_100_state "params").1.buffer.length = 101 := by
  refine ⟨rfl, ?_⟩
  simp [submit_create_wallet, full_100_state]

/-- C2 amended: submission goes into an unbounded channel; while the
worker (receiver) is alive a submission always succeeds and appends
the command, at any pending depth; the only synchronous submit error
is `"Queue channel closed"` when the receiver is gone, in which case
nothing is enqueued. -/
theorem c2_amended_unbounded_submit :
    (∀ (st : QueueState) (p : String), st.receiverAlive = true →
      (submit_create_wallet st p).2 = .ok () ∧
        (submit_create_wallet st p).1.buffer =
          st.buffer ++ [WalletCommand.createWallet p])
  ∧ (∀ (st : QueueState) (p : String), st.receiverAlive = false →
      (submit_create_wallet st p).2 = .error "Queue channel closed" ∧
        (submit_create_wallet st p).1.buffer = st.buffer) := by
  constructor
  · intro st p h; simp [submit_create_wallet, h]
  · intro st p h; simp [submit_create_wallet, h]

/-- C2 amended, witness: the live half at a state already holding 100
pending operations, the closed half at a state with a dropped
receiver. -/
theorem c2_amended_unbounded_submit_witness :
    ((submit_create_wallet full_100_state "x").2 = .ok () ∧
      (submit_create_wallet full_100_state "x").1.buffer =
        full_100_state.buffer ++ [WalletCommand.createWallet "x"])
  ∧ ((submit_create_wallet closed_state "x").2 = .error "Queue channel closed" ∧
      (submit_create_wallet closed_state "x").1.buffer = closed_state.buffer) :=
  ⟨c2_amended_unbounded_submit.1 full_100_state "x" rfl,
   c2_amended_unbounded_submit.2 closed_state "x" rfl⟩

/-- C3 counterexample: the claim asserts a worker-side panic during
one operation's FFI call is caught, converted into a transport error
on that operation's reply channel, and the loop continues.  At the
panicking outcome the modelled iteration delivers no reply and the
worker does not continue: `worker_task` wraps the call in no
`catch_unwind`, so the panic unwinds the worker thread. -/
theorem c3_counterexample_panic_terminates_worker :
    (worker_step FfiOutcome.panicked).continues = false
  ∧ (worker_step FfiOutcome.panicked).reply = none :=
  ⟨rfl, rfl⟩

/-- C3 amended: the worker catches nothing.  A returned result (error
or success) is sent on the reply channel, `record_dequeue` runs and
the loop continues; a panic unwinds the worker thread — no reply is
sent, no dequeue is recorded, no further item is processed — and a
caller awaiting that reply then observes the transport error
`"Response channel closed"` from its dropped reply channel. -/
theorem c3_amended_panic_uncaught :
    (∀ r, worker_step (FfiOutcome.ret r) =
      WorkerStepEffect.mk (some r) true true)
  ∧ worker_step FfiOutcome.panicked = WorkerStepEffect.mk none false false
  ∧ await_reply none = .error "Response channel closed" :=
  ⟨fun _ => rfl, rfl, rfl⟩

/-- C4 counterexample: the claim asserts the amount added to the
cumulative wait-time metric equals `dequeue_time − enqueue_time`.  For
an operation enqueued at 0 ms, dequeued at 5 ms and processed in 3 ms,
the worker adds 3 ms (the `Instant::now()` taken at dequeue, elapsed
after the FFI call), not the 5 ms the operation waited in the
queue. -/
theorem c4_counterexample_wait_ignores_enqueue_time :
    (process_op QueueMetrics.init 5 3).totalWaitTimeMs = 3
  ∧ (3 : Nat) ≠ 5 - 0 := by
  constructor
  · rfl
  · decide

/-- C4 amended: for every operation processed by the worker, the
amount added to the cumulative wait-time metric is the operation's
processing duration — the time from the dequeue instant to the metric
recording after the FFI call and reply send (modulo the `u64` wrap of
the atomic counter).  The enqueue moment never participates:
`WalletCommand` carries no enqueue timestamp. -/
theorem c4_amended_wait_is_processing_duration (m : QueueMetrics)
    (dequeueTimeMs processingMs : Nat) :
    (process_op m dequeueTimeMs processingMs).totalWaitTimeMs =
      (m.totalWaitTimeMs + processingMs) % USIZE_MOD := by
  have h : (dequeueTimeMs + processingMs) - dequeueTimeMs = processingMs := by omega
  simp [process_op, QueueMetrics.record_dequeue, h]

/-- C5 counterexample: the claim asserts the all-candidates-failed
error contains the full list of attempted paths.  With the two
candidates `"firstpath"` and `"secondpath"` both failing, the returned
error names only the last path and its failure; the attempted path
`"firstpath"` occurs nowhere in the error value (the path list is only
logged via `tracing`). -/
theorem c5_counterexample_error_lacks_attempted_paths :
    WalletLibrary.load os_load_fail "libarcsign.so" ["firstpath", "secondpath"] =
      .error "Failed to load libarcsign.so from any search path. Last error: secondpath: no such file"
  ∧ has_substring "firstpath".data
      "Failed to load libarcsign.so from any search path. Last error: secondpath: no such file".data
      = false := by
  constructor
  · rfl
  · decide

/-- C5 amended: `load()` attempts the candidate paths in order and the
first successful load wins (all earlier failures are skipped); when
every candidate fails it returns an error value containing the library
name and the **last** underlying failure with its path — not the full
list of attempted paths, which is only logged — and no partial
state. -/
theorem c5_amended_load_order_and_last_error :
    (∀ (osLoad : String → Except String Nat) (libName : String)
        (pre post : List String) (p : String) (h : Nat),
      (∀ q ∈ pre, ∃ e, osLoad q = .error e) →
      osLoad p = .ok h →
      WalletLibrary.load osLoad libName (pre ++ p :: post) = .ok h)
  ∧ (∀ (osLoad : String → Except String Nat) (libName : String)
        (ps : List String) (lastP e : String),
      (∀ q ∈ ps, ∃ e', osLoad q = .error e') →
      osLoad lastP = .error e →
      WalletLibrary.load osLoad libName (ps ++ [lastP]) =
        .error ("Failed to load " ++ libName ++
          " from any search path. Last error: " ++ (lastP ++ ": " ++ e))) := by
  constructor
  · intro osLoad libName pre post p h hpre hp
    rcases load_loop_skips_failures osLoad libName pre (p :: post) "" hpre with
      ⟨acc2, heq⟩
    have hload : WalletLibrary.load osLoad libName (pre ++ p :: post) =
        WalletLibrary.load_loop osLoad libName (pre ++ p :: post) "" := rfl
    rw [hload, heq]
    simp [WalletLibrary.load_loop, hp]
  · intro osLoad libName ps lastP e hfail hlast
    exact load_loop_all_fail osLoad libName ps lastP e "" hfail hlast

/-- C5 amended, witness: with only the second candidate loadable the
loader succeeds through it; with both candidates failing the error
carries the library name and the last failure. -/
theorem c5_amended_load_order_and_last_error_witness :
    WalletLibrary.load os_load_good "libarcsign.so" ["firstpath", "goodpath"] = .ok 7
  ∧ WalletLibrary.load os_load_fail "libarcsign.so" ["firstpath", "secondpath"] =
      .error ("Failed to load " ++ "libarcsign.so" ++
        " from any search path. Last error: " ++
        ("secondpath" ++ ": " ++ "no such file")) := by
  constructor
  · exact c5_amended_load_order_and_last_error.1 os_load_good "libarcsign.so"
      ["firstpath"] [] "goodpath" 7
      (by intro q hq; simp at hq; subst hq; exact ⟨"no such file", rfl⟩) rfl
  · exact c5_amended_load_order_and_last_error.2 os_load_fail "libarcsign.so"
      ["firstpath"] "secondpath" "no such file"
      (by intro q hq; simp at hq; subst hq; exact ⟨"no such file", rfl⟩) rfl

/-- C6 counterexample: the claim asserts unrecognized foreign codes
map to a kind distinguishable from the kinds used for the bridge's own
internal failures.  `AppError::from_ffi_error_code` maps the
unrecognized code `"ZZZ"` to `ErrorCode::InternalError` — the same
kind the `From<std::io::Error>` conversion uses for the bridge's own
local failures. -/
theorem c6_counterexample_unknown_code_is_internal_error :
    AppError.from_ffi_error_code "ZZZ" = ErrorCode.internalError
  ∧ (AppError.from_io_error "disk fault").code = ErrorCode.internalError := by
  exact ⟨by decide, rfl⟩

/-- C6 amended: an unrecognized foreign code is never dropped and
never panics, but the two translators differ: the
`From<String> for ffi::types::ErrorCode` conversion yields the
distinct `Unknown(code)` variant, while `AppError::from_ffi_error_code`
yields `ErrorCode::InternalError` — the very kind the bridge uses for
its own internal failures — so at the `AppError` level unrecognized
foreign codes are not distinguishable from internal faults. -/
theorem c6_amended_unknown_code_translation (s : String)
    (h : s ∉ AppError.recognised_ffi_codes) :
    ffi.ErrorCode.fromString s = ffi.ErrorCode.unknown s
  ∧ AppError.from_ffi_error_code s = ErrorCode.internalError := by
  simp only [AppError.recognised_ffi_codes, List.mem_cons, List.mem_singleton,
    List.not_mem_nil, or_false, not_or] at h
  obtain ⟨h1, h2, h3, h4, h5, h6, h7, h8, h9⟩ := h
  constructor
  · simp [ffi.ErrorCode.fromString, h1, h2, h3, h4, h5, h6, h7, h8, h9]
  · simp [AppError.from_ffi_error_code, h1, h2, h3, h4, h5, h6, h7, h8, h9]

/-- C6 amended, witness at the unrecognized code `"ZZZ"`. -/
theorem c6_amended_unknown_code_translation_witness :
    ffi.ErrorCode.fromString "ZZZ" = ffi.ErrorCode.unknown "ZZZ"
  ∧ AppError.from_ffi_error_code "ZZZ" = ErrorCode.internalError :=
  c6_amended_unknown_code_translation "ZZZ" (by decide)

/-- C7: for every foreign call whose decoded envelope has
`success = true` but no `data` field, each generic adapter returns the
protocol-violation error `"Success response missing data"`; no default
value is substituted. -/
theorem c7_missing_data_on_success_is_error
    (parse : List Nat → Option FFIResponse) (params : List Nat)
    (mem : List Nat) (env : FFIResponse)
    (hparams : params.contains 0 = false)
    (hutf8 : utf8_valid (c_str_bytes mem) = true)
    (hparse : parse (c_str_bytes mem) = some env)
    (hsuccess : env.success = true)
    (hdata : env.data = none) :
    (WalletLibrary.call_ffi_with_params parse params (some mem)).result =
      .error "Success response missing data"
  ∧ (WalletLibrary.call_ffi_json parse (some mem)).result =
      .error "Success response missing data"
  ∧ (WalletLibrary.get_version parse (some mem)).result =
      .error "Success response missing data" := by
  have henv : handle_response env = .error "Success response missing data" := by
    simp [handle_response, hsuccess, hdata]
  have hp0 : ¬ (0 ∈ params) := by
    intro hm
    have hel := List.elem_iff.mpr hm
    simp [List.contains] at hparams
    exact absurd hel (by simpa using hparams)
  refine ⟨?_, ?_, ?_⟩ <;>
    simp [WalletLibrary.call_ffi_with_params, WalletLibrary.call_ffi_json,
      WalletLibrary.get_version, hp0, hutf8, hparse, henv]

/-- C7, witness: a parser yielding the envelope
`{"success": true}` (no data) over a valid one-byte buffer. -/
theorem c7_missing_data_on_success_is_error_witness :
    (WalletLibrary.call_ffi_with_params parse_success_no_data [] (some [65, 0])).result =
      .error "Success response missing data"
  ∧ (WalletLibrary.call_ffi_json parse_success_no_data (some [65, 0])).result =
      .error "Success response missing data"
  ∧ (WalletLibrary.get_version parse_success_no_data (some [65, 0])).result =
      .error "Success response missing data" :=
  c7_missing_data_on_success_is_error parse_success_no_data [] [65, 0]
    ⟨true, none, none⟩ rfl rfl rfl rfl rfl

/-- C8: strict FIFO.  Submitting any list of create-wallet operations
into a fresh queue (before any dequeue) buffers them in submission
order on the mpsc channel, and the worker loop then performs the
foreign call and delivers the reply for each in exactly that order:
its trace is the submission list mapped through execution, with no
reordering. -/
theorem c8_fifo_processing_order
    (exec : WalletCommand → Except String JsonValue) (ps : List String) :
    worker_run exec (submit_all initial_queue_state ps).buffer =
      (ps.map WalletCommand.createWallet).map (fun c => (c, exec c)) := by
  rw [worker_run_map, submit_all_buffer ps initial_queue_state rfl]
  simp [initial_queue_state]

/-- C9: over any sequence of enqueue/dequeue metric events the peak
depth never decreases, and immediately after each `record_enqueue` the
peak is at least the pending depth that enqueue observed (the
compare-exchange loop only ever raises it). -/
theorem c9_peak_depth_monotone :
    (∀ (m : QueueMetrics) (evs : List MetricEvent),
      m.peakDepth ≤ (metrics_run m evs).peakDepth)
  ∧ (∀ m : QueueMetrics,
      (QueueMetrics.record_enqueue m).currentDepth ≤
        (QueueMetrics.record_enqueue m).peakDepth) := by
  constructor
  · intro m evs
    exact metrics_run_peak_le evs m
  · intro m
    simp only [QueueMetrics.record_enqueue]
    split
    · exact Nat.le_refl _
    · exact Nat.le_of_not_lt (by assumption)

/-- C10: every `AppError` constructed through `new` or `with_details`
stores a sanitized message: splitting the stored message on newlines,
no line contains `'/'` or a backslash (any original line containing
either was replaced wholesale by the fixed placeholder). -/
theorem c10_sanitized_message_has_no_paths
    (code : ErrorCode) (msg details : String) :
    ((split_nl (AppError.new code msg).message.data).all line_clean = true)
  ∧ ((split_nl (AppError.with_details code msg details).message.data).all
      line_clean = true) := by
  have key : ∀ l ∈ split_nl (AppError.sanitize_message msg).data,
      line_clean l = true := by
    intro l hl
    have hmem : ∀ c ∈ l, c ∈ (AppError.sanitize_message msg).data :=
      mem_of_mem_split_nl _ l hl
    have h1 : '/' ∉ l := fun hc =>
      sanitize_message_no_slash msg '/' (hmem _ hc) (Or.inl rfl)
    have h2 : '\\' ∉ l := fun hc =>
      sanitize_message_no_slash msg '\\' (hmem _ hc) (Or.inr rfl)
    unfold line_clean
    rw [contains_eq_false_of_not_mem h1, contains_eq_false_of_not_mem h2]
    rfl
  exact ⟨List.all_eq_true.mpr key, List.all_eq_true.mpr key⟩
